import Mathlib

/-!
Verification of the core extraction algorithms of `phycontrib/template/gui.py`
(the phy-contrib Template GUI controller).

The Python source is shallowly embedded: numpy arrays become `List`s, floats
become `ℚ`, in-place numpy errors (broadcast mismatches, empty reductions,
zero-weight averages, failed assertions) become `Option`/`Except` failures.
A raised Python exception is modelled as `none` / `.error`.
-/

namespace PhyContrib

/-- Python's `int(round(x))` / numpy rounding: round half to even. -/
def pyRound (q : ℚ) : ℤ :=
  let f := q.floor
  if 1 < 2 * (q - (f : ℚ)) then f + 1
  else if 2 * (q - (f : ℚ)) < 1 then f
  else if f % 2 = 0 then f else f + 1

/-- Resolve a (possibly negative) Python slice endpoint against a length `n`. -/
def resolveIdx (n : ℕ) (i : ℤ) : ℕ :=
  if i < 0 then ((n : ℤ) + i).toNat else min i.toNat n

/-- Python slice `l[sa:sb]` (step 1), with negative-index wraparound and clipping. -/
def pySlice {α : Type} (l : List α) (sa sb : ℤ) : List α :=
  let st := resolveIdx l.length sa
  let en := resolveIdx l.length sb
  (l.drop st).take (en - st)

/-- `np.arange(start, stop, step)` over naturals (`step > 0` at every use site). -/
def arange (start stop step : ℕ) : List ℕ :=
  (List.range ((stop - start + step - 1) / step)).map (fun k => start + k * step)

/-- `np.max` over a list: `none` on an empty list (numpy raises `ValueError`). -/
def listMax (l : List ℚ) : Option ℚ := l.max?

/-- `np.min` over a list: `none` on an empty list (numpy raises `ValueError`). -/
def listMin (l : List ℚ) : Option ℚ := l.min?

/-- Combine two optional values with `min` (both must be present). -/
def omin2 : Option ℚ → Option ℚ → Option ℚ
  | some a, some b => some (min a b)
  | _, _ => none

/-- Combine two optional values with `max` (both must be present). -/
def omax2 : Option ℚ → Option ℚ → Option ℚ
  | some a, some b => some (max a b)
  | _, _ => none

/-- `np.searchsorted(l, v)` with the default `side='left'`: for a sorted `l`,
the number of elements strictly below `v`. -/
def searchsortedL (l : List ℚ) (v : ℚ) : ℕ := l.countP (fun x => decide (x < v))

/-- Sorted unique values of a list of naturals: `np.unique`. -/
def uniqueSorted (l : List ℕ) : List ℕ :=
  (List.range (l.foldr max 0 + 1)).filter (fun t => l.contains t)

/-- Kinds of Python exceptions the embedded code can raise. -/
inductive PyErr where
  | assertionError
  | valueError
  | zeroDivisionError
  | typeError
deriving DecidableEq, Repr

instance {ε α : Type} [DecidableEq ε] [DecidableEq α] : DecidableEq (Except ε α) := fun x y =>
  match x, y with
  | .ok a, .ok b => decidable_of_iff (a = b) (by simp)
  | .error e, .error f => decidable_of_iff (e = f) (by simp)
  | .ok _, .error _ => isFalse (by simp)
  | .error _, .ok _ => isFalse (by simp)

/-!
### The data model

`Model` gathers the read-only arrays that `TemplateModel` (the dataset
collaborator) and the clustering state expose to `TemplateController`.
Floats are `ℚ`; 2-D arrays are row lists. `colorOf` abstracts the external
`ColorSelector` collaborator (the controller only threads its result through).
-/

structure Model where
  n_templates : ℕ
  /-- `model.spike_templates[i]`: template id of spike `i` (each `< n_templates`). -/
  spike_templates : List ℕ
  /-- `clustering.spike_clusters[i]`: cluster id of spike `i`. -/
  spike_clusters : List ℕ
  /-- `model.spike_times[i]`, seconds, non-decreasing. -/
  spike_times : List ℚ
  /-- `model.amplitudes[i]`. -/
  amplitudes : List ℚ
  /-- `model.similar_templates`: template × template similarity matrix. -/
  similar_templates : List (List ℚ)
  /-- `model.get_template_features`: per-spike template-feature row. -/
  template_features : List (List ℚ)
  /-- per template: its associated channel subset (`template.channels`). -/
  templates_channels : List (List ℕ)
  /-- per template: its peak channel (`template.best_channel`). -/
  templates_best_channel : List ℕ
  /-- `model.get_features` backing data: per spike, per channel feature value. -/
  features : List (List ℚ)
  /-- raw multichannel trace rows. -/
  traces : List (List ℚ)
  n_samples_templates : ℕ
  sample_rate : ℚ
  /-- external `ColorSelector` collaborator, abstracted per cluster. -/
  colorOf : ℕ → ℕ

def Model.n_spikes (M : Model) : ℕ := M.spike_times.length

/-- `supervisor.clustering.spikes_per_cluster[c]`: the spikes assigned to
cluster `c`, in increasing spike-index order (phy derives this mapping from
`spike_clusters`; a cluster with no spikes yields the empty list). -/
def spikes_per_cluster (M : Model) (c : ℕ) : List ℕ :=
  (List.range M.n_spikes).filter (fun i => decide (M.spike_clusters.getD i 0 = c))

/-- `supervisor.clustering.cluster_ids`: `np.unique(spike_clusters)`,
the sorted list of current cluster ids. -/
def clusterIds (M : Model) : List ℕ := uniqueSorted M.spike_clusters

/-- Number of spikes of cluster `c` assigned to template `t`. -/
def templateCount (M : Model) (c t : ℕ) : ℕ :=
  ((spikes_per_cluster M c).filter (fun i => decide (M.spike_templates.getD i 0 = t))).length

/-- `get_template_counts`: `np.bincount(st, minlength=n_templates)`.
(Entries of `spike_templates` are `< n_templates`, so the bincount length is
exactly `n_templates`.) -/
def get_template_counts (M : Model) (c : ℕ) : List ℕ :=
  (List.range M.n_templates).map (fun t => templateCount M c t)

/-- `np.nonzero(get_template_counts(c))[0]`: the cluster's active templates. -/
def activeTemplates (M : Model) (c : ℕ) : List ℕ :=
  (List.range M.n_templates).filter (fun t => decide (templateCount M c t ≠ 0))

/-- Entry `(t, j)` of the template similarity matrix. -/
def simST (M : Model) (t j : ℕ) : ℚ := (M.similar_templates.getD t []).getD j 0

/-!
### `get_template_for_cluster` and best channels
-/

/-- `get_template_for_cluster`: `np.unique(st, return_counts=True)` then
`np.argmax(counts)` (the *first* maximum; `np.unique` sorts the ids, so ties
resolve to the smallest template id). `none` models the `ValueError` that
`np.argmax` raises on an empty array (cluster with no spikes). -/
def get_template_for_cluster (M : Model) (c : ℕ) : Option ℕ :=
  let sts := (spikes_per_cluster M c).map (fun i => M.spike_templates.getD i 0)
  let tids := uniqueSorted sts
  let counts := tids.map (fun t => (sts.filter (fun s => decide (s = t))).length)
  match counts.max? with
  | none => none
  | some m => tids.get? (counts.findIdx (fun cnt => decide (cnt = m)))

/-- `get_best_channels`: channel subset of the cluster's dominant template. -/
def get_best_channels (M : Model) (c : ℕ) : Option (List ℕ) :=
  (get_template_for_cluster M c).map (fun tid => M.templates_channels.getD tid [])

/-- `get_best_channel`: peak channel of the cluster's dominant template. -/
def get_best_channel (M : Model) (c : ℕ) : Option ℕ :=
  (get_template_for_cluster M c).map (fun tid => M.templates_best_channel.getD tid 0)

/-!
### `similarity`
-/

/-- `sims = np.max(similar_templates[temp_i, :], axis=0)`: per column, the
maximum over the source cluster's active templates. `none` models the
`ValueError` numpy raises when reducing over an empty axis (no active
template, i.e. an empty source cluster). The matrix is `n_templates` wide. -/
def simsRow (M : Model) (ci : ℕ) : Option (List ℚ) :=
  match activeTemplates M ci with
  | [] => none
  | t0 :: ts =>
    some ((List.range M.n_templates).map (fun j =>
      (ts.map (fun t => simST M t j)).foldl max (simST M t0 j)))

/-- `_sim_ij(cj)`: for `cj < n_templates` the code reads column `cj` of `sims`
directly (the cluster id is used as a template id); otherwise it maximises
`sims` over `cj`'s active templates (`none`: empty reduction). -/
def simIJ (M : Model) (sims : List ℚ) (cj : ℕ) : Option ℚ :=
  if cj < M.n_templates then sims.get? cj
  else listMax ((activeTemplates M cj).map (fun t => sims.getD t 0))

/-- Score every cluster of `cs`; any failing `_sim_ij` aborts the whole call. -/
def scoreAll (M : Model) (sims : List ℚ) : List ℕ → Option (List (ℕ × ℚ))
  | [] => some []
  | cj :: rest =>
    match simIJ M sims cj, scoreAll M sims rest with
    | some s, some r => some ((cj, s) :: r)
    | _, _ => none

/-- The comparison `sorted(out, key=itemgetter(1), reverse=True)` sorts by:
`p` may precede `q` iff `q`'s score is at most `p`'s. -/
def scoreGE (p q : ℕ × ℚ) : Prop := q.2 ≤ p.2

instance : DecidableRel scoreGE := fun p q => inferInstanceAs (Decidable (q.2 ≤ p.2))

instance : IsTotal (ℕ × ℚ) scoreGE := ⟨fun p q => le_total q.2 p.2⟩

instance : IsTrans (ℕ × ℚ) scoreGE := ⟨fun _ _ _ h1 h2 => le_trans h2 h1⟩

/-- Python's `sorted(..., key=itemgetter(1), reverse=True)`: a stable sort,
descending by score. Modelled by (stable) insertion sort. -/
def pySortDesc (l : List (ℕ × ℚ)) : List (ℕ × ℚ) := List.insertionSort scoreGE l

/-- `TemplateController.similarity`. -/
def similarity (M : Model) (ci : ℕ) : Option (List (ℕ × ℚ)) :=
  match simsRow M ci with
  | none => none
  | some sims => (scoreAll M sims (clusterIds M)).map pySortDesc

/-!
### Spike selection and the extractors
-/

def n_spikes_waveforms : ℕ := 100
def n_spikes_features : ℕ := 10000
def n_spikes_amplitudes : ℕ := 10000

/-- Modelled from the spec: `Selector.select_spikes` is imported from the
external `phy` package (its code is not part of this repository). Per spec
§4.1 it returns the union of the clusters' spikes sorted by spike index,
unchanged when the count is at most `max_count`, otherwise a deterministic
evenly-spread subsample of at most roughly `max_count` spikes (here: a fixed
stride; the per-batch refinement is irrelevant to every claim below), and an
empty list for an empty cluster or `max_count = 0`. -/
def select_spikes (M : Model) (cs : List ℕ) (max_count : ℕ) : List ℕ :=
  let all := (List.range M.n_spikes).filter (fun i => cs.contains (M.spike_clusters.getD i 0))
  if max_count = 0 then []
  else if all.length ≤ max_count then all
  else (arange 0 all.length ((all.length + max_count - 1) / max_count)).map (fun k => all.getD k 0)

/-- `TemplateController._get_spike_ids`. -/
def _get_spike_ids (M : Model) (cluster_id : Option ℕ) : List ℕ :=
  match cluster_id with
  | none => arange 0 M.n_spikes (max 1 (M.n_spikes / n_spikes_features))
  | some c => select_spikes M [c] n_spikes_features

structure FeatBunch where
  data : List (List ℚ)
  channel_ids : List ℕ
deriving DecidableEq, Repr

/-- Modelled from the spec: `TemplateModel.get_features` (this repository's
`template/model.py` is not under `src/`): fetch the feature vectors of the
given spikes restricted to the given channels (spec §4.3); a plain data
fetch that cannot fail. -/
def model_get_features (M : Model) (sids chs : List ℕ) : List (List ℚ) :=
  sids.map (fun i => chs.map (fun ch => (M.features.getD i []).getD ch 0))

/-- `TemplateController._get_features`. When a cluster is given, its best
channels override `channel_ids` (this can raise `ValueError` first, from
`np.argmax` on an empty cluster); `assert channel_ids is not None` raises
`AssertionError` exactly when neither a cluster nor channels are given. -/
def _get_features (M : Model) (cluster_id : Option ℕ) (channel_ids : Option (List ℕ)) :
    Except PyErr FeatBunch :=
  let spike_ids := _get_spike_ids M cluster_id
  match cluster_id with
  | some c =>
    match get_best_channels M c with
    | none => .error .valueError
    | some chs => .ok ⟨model_get_features M spike_ids chs, chs⟩
  | none =>
    match channel_ids with
    | none => .error .assertionError
    | some chs => .ok ⟨model_get_features M spike_ids chs, chs⟩

structure WaveBunch where
  data : List (List ℚ)
  spike_ids : List ℕ
  channel_ids : List ℕ
deriving DecidableEq, Repr

/-- Modelled from the spec: `TemplateModel.get_waveforms` (repository file not
under `src/`): fetch per-spike, per-channel waveform data (spec §4.3). The
content is irrelevant to the claims; one value per (spike, channel). -/
def model_get_waveforms (M : Model) (sids chs : List ℕ) : List (List ℚ) :=
  sids.map (fun i => chs.map (fun ch => (M.traces.getD i []).getD ch 0))

/-- `TemplateController._get_waveforms` (the batch-size argument of the
selector only affects which spikes are subsampled). -/
def _get_waveforms (M : Model) (c : ℕ) : Except PyErr WaveBunch :=
  let spike_ids := select_spikes M [c] n_spikes_waveforms
  match get_best_channels M c with
  | none => .error .valueError
  | some chs => .ok ⟨model_get_waveforms M spike_ids chs, spike_ids, chs⟩

structure AmpBunch where
  x : List ℚ
  y : List ℚ
deriving DecidableEq, Repr

/-- `TemplateController._get_amplitudes`. -/
def _get_amplitudes (M : Model) (c : ℕ) : AmpBunch :=
  let spike_ids := select_spikes M [c] n_spikes_amplitudes
  ⟨spike_ids.map (fun i => M.spike_times.getD i 0),
   spike_ids.map (fun i => M.amplitudes.getD i 0)⟩

/-!
### `_get_template_features`
-/

/-- `np.average(t, weights=w, axis=1)`: numpy first computes the weight sum
and raises `ZeroDivisionError` when it vanishes (even for zero rows), then
requires each row to match the weights in length. -/
def npAverage (t : List (List ℚ)) (w : List ℚ) : Except PyErr (List ℚ) :=
  if w.foldl (· + ·) 0 = 0 then .error .zeroDivisionError
  else t.mapM (fun row =>
    if row.length = w.length then
      .ok (((row.zipWith (· * ·) w).foldl (· + ·) 0) / w.foldl (· + ·) 0)
    else (.error .typeError : Except PyErr ℚ))

structure TFBunch where
  x0 : List ℚ
  y0 : List ℚ
  x1 : List ℚ
  y1 : List ℚ
  data_bounds : ℚ × ℚ × ℚ × ℚ
deriving DecidableEq, Repr

/-- The per-spike template-feature rows fetched for a cluster:
`t = model.get_template_features(_get_spike_ids(clu))`. -/
def tfRows (M : Model) (c : ℕ) : List (List ℚ) :=
  (_get_spike_ids M (some c)).map (fun i => M.template_features.getD i [])

/-- A cluster's template-count histogram as rational weights. -/
def tfWeights (M : Model) (c : ℕ) : List ℚ :=
  (get_template_counts M c).map (Nat.cast : ℕ → ℚ)

/-- `TemplateController._get_template_features`. `assert len(cluster_ids) == 2`;
the four weighted averages; then
`data_bounds = (min(x0.min(), x1.min()), min(y0.min(), y1.min()),
max(y0.max(), y1.max()), max(y0.max(), y1.max()))` — `.min()`/`.max()` raise
`ValueError` on empty arrays. -/
def _get_template_features (M : Model) (cluster_ids : List ℕ) : Except PyErr TFBunch :=
  if cluster_ids.length = 2 then
    match npAverage (tfRows M (cluster_ids.getD 0 0)) (tfWeights M (cluster_ids.getD 0 0)),
        npAverage (tfRows M (cluster_ids.getD 0 0)) (tfWeights M (cluster_ids.getD 1 0)),
        npAverage (tfRows M (cluster_ids.getD 1 0)) (tfWeights M (cluster_ids.getD 0 0)),
        npAverage (tfRows M (cluster_ids.getD 1 0)) (tfWeights M (cluster_ids.getD 1 0)) with
    | .ok x0, .ok y0, .ok x1, .ok y1 =>
      match listMin x0, listMin x1, listMin y0, listMin y1, listMax y0, listMax y1 with
      | some mx0, some mx1, some my0, some my1, some My0, some My1 =>
        .ok ⟨x0, y0, x1, y1, (min mx0 mx1, min my0 my1, max My0 My1, max My0 My1)⟩
      | _, _, _, _, _, _ => .error .valueError
    | .error e, _, _, _ => .error e
    | _, .error e, _, _ => .error e
    | _, _, .error e, _ => .error e
    | _, _, _, .error e => .error e
  else .error .assertionError

/-!
### `_get_traces` (Trace Window Builder)
-/

structure TraceClip where
  data : List (List ℚ)
  channel_ids : List ℕ
  start_time : ℚ
  cluster_id : ℕ
  color : ℕ
deriving DecidableEq, Repr

structure TracesBunch where
  data : List (List ℚ)
  waveforms : List TraceClip
deriving DecidableEq, Repr

/-- Modelled from the contract of the external `phy` collaborator
`select_traces` (spec §6): the raw trace rows for the requested interval,
`traces[round(t0*sr):round(t1*sr)]`. -/
def select_traces (M : Model) (t0 t1 : ℚ) : List (List ℚ) :=
  pySlice M.traces (pyRound (t0 * M.sample_rate)) (pyRound (t1 * M.sample_rate))

/-- The spike-offset `s` of spike `i` within the slice that starts at
absolute sample `s0`: `int(round(t * sr)) - s0`. -/
def spikeOffset (M : Model) (s0 : ℤ) (i : ℕ) : ℤ :=
  pyRound (M.spike_times.getD i 0 * M.sample_rate) - s0

/-- The clip `Bunch` built for a non-skipped spike `i`
(`traces[s - k:s + k, channel_ids]` etc.). The channels come from
`get_best_channels`; `_get_traces` only builds a clip after that call
succeeded, so the `getD []` default is never used in its output. The
`color` comes from the external `ColorSelector` collaborator (abstracted by
`Model.colorOf`; the `cluster_meta` group lookup only feeds that collaborator). -/
def buildClip (M : Model) (traces : List (List ℚ)) (s0 : ℤ) (i : ℕ) : TraceClip :=
  let c := M.spike_clusters.getD i 0
  let chans := (get_best_channels M c).getD []
  let s := spikeOffset M s0 i
  let k : ℤ := (M.n_samples_templates / 2 : ℕ)
  ⟨(pySlice traces (s - k) (s + k)).map (fun row => chans.map (fun ch => row.getD ch 0)),
   chans, ((s + s0 - k : ℤ) : ℚ) / M.sample_rate, c, M.colorOf c⟩

/-- The skip test of the `_get_traces` loop for spike `i`:
`s - k < 0 or s + k >= (s1 - s0)` with `k = n_samples_templates // 2`. -/
def traceSkipB (M : Model) (t0 t1 : ℚ) (i : ℕ) : Bool :=
  decide (spikeOffset M (pyRound (t0 * M.sample_rate)) i
      - ((M.n_samples_templates / 2 : ℕ) : ℤ) < 0) ||
  decide (pyRound (t1 * M.sample_rate) - pyRound (t0 * M.sample_rate)
      ≤ spikeOffset M (pyRound (t0 * M.sample_rate)) i
        + ((M.n_samples_templates / 2 : ℕ) : ℤ))

/-- `TemplateController._get_traces` on the interval `[t0, t1)`:
slice the traces, locate the interval's spikes by `searchsorted`, and for
each one call `get_best_channels` (this precedes the skip test in the
source), then skip it unless its window `[s - k, s + k)` fits inside
`[0, s1 - s0)`; non-skipped spikes contribute a clip, in index order.
`none` models a raised exception (`get_best_channels` on an empty cluster). -/
def _get_traces (M : Model) (t0 t1 : ℚ) : Option TracesBunch :=
  ((List.range' (searchsortedL M.spike_times t0)
      (searchsortedL M.spike_times t1 - searchsortedL M.spike_times t0)).mapM
      (fun i => (get_best_channels M (M.spike_clusters.getD i 0)).map (fun _ => i))).map
    (fun idxs => ⟨select_traces M t0 t1, idxs.filterMap (fun i =>
      if traceSkipB M t0 t1 i then none
      else some (buildClip M (select_traces M t0 t1) (pyRound (t0 * M.sample_rate)) i))⟩)

/-!
### `subtract_templates`
-/

/-- Width (channel count) of a row-list matrix. -/
def matWidth (tr : List (List ℚ)) : ℕ := (tr.head?.map List.length).getD 0

/-- The in-place numpy statement `traces[sa:sb, :] -= x`. The row counts must
be broadcast-compatible (`x` has as many rows as the slice, or one row);
otherwise numpy raises a `ValueError`, modelled as `none`. Rows of `x` must
match the trace width channel-wise (the channel dimension always agrees at
the call sites; a width-1 channel broadcast is not modelled). -/
def sliceISub (tr : List (List ℚ)) (sa sb : ℤ) (x : List (List ℚ)) :
    Option (List (List ℚ)) :=
  let n := tr.length
  let st := resolveIdx n sa
  let en := resolveIdx n sb
  let len := en - st
  if (x.length = len ∨ x.length = 1) ∧ x.all (fun r => r.length = matWidth tr) then
    let rows := if x.length = 1 then List.replicate len (x.getD 0 []) else x
    some ((tr.take st) ++
      (((tr.drop st).take len).zipWith (fun trow xrow =>
        trow.zipWith (fun u v => u - v) xrow) rows) ++ tr.drop en)
  else none

/-- Multiply every entry of a matrix by a scalar: `w[index] * amplitudes[index]`. -/
def scaleMat (m : List (List ℚ)) (a : ℚ) : List (List ℚ) := m.map (fun r => r.map (· * a))

/-- The remaining arguments of `subtract_templates` (besides the traces). -/
structure SubtractArgs where
  start : ℚ
  spike_times : List ℚ
  amplitudes : List ℚ
  /-- `spike_templates`: per spike, an `n_samples_t × n_channels` waveform. -/
  spike_templates : List (List (List ℚ))
  sample_rate : ℚ

/-- `n_samples_t` from the shape of the `spike_templates` array. -/
def SubtractArgs.nSamplesT (A : SubtractArgs) : ℕ :=
  (A.spike_templates.head?.map List.length).getD 0

/-- One iteration of the `subtract_templates` loop (spike `index`):
`t = int(round((st[index] - start) * sample_rate))`, split the template
length into `i + j`, scale by the amplitude, clip on the left if `sa < 0`,
*elif* clip on the right if `sb > n`, then subtract in place. -/
def subtractStep (A : SubtractArgs) (tr : List (List ℚ)) (index : ℕ) :
    Option (List (List ℚ)) :=
  let t := pyRound ((A.spike_times.getD index 0 - A.start) * A.sample_rate)
  let nst := A.nSamplesT
  let i : ℤ := (nst / 2 : ℕ)
  let j : ℤ := ((nst / 2 + nst % 2 : ℕ) : ℤ)
  let x := scaleMat (A.spike_templates.getD index []) (A.amplitudes.getD index 0)
  let n : ℤ := tr.length
  let sa := t - i
  let sb := t + j
  if sa < 0 then sliceISub tr 0 sb (x.drop (-sa).toNat)
  else if n < sb then sliceISub tr sa n (x.take (x.length - (sb - n).toNat))
  else sliceISub tr sa sb x

/-- `subtract_templates`: iterate the subtraction over every spike, on a
private copy of the input buffer (the copy is value-level identity here; the
memory model below makes it observable). `none` models a raised exception. -/
def subtract_templates (traces : List (List ℚ)) (A : SubtractArgs) :
    Option (List (List ℚ)) :=
  (List.range A.spike_templates.length).foldlM (subtractStep A) traces

/-!
### A small memory model for the frame effect of `subtract_templates`

Numpy's `-=` mutates the array object in place, so `traces = traces.copy()`
on the first line is what keeps the caller's buffer intact.  `Mem` is a store
of array objects addressed by index; `subtract_templatesM` performs the copy
(an allocation) and then mutates only the fresh buffer.
-/

structure Mem where
  arrays : List (List (List ℚ))
deriving DecidableEq, Repr

def Mem.read (m : Mem) (r : ℕ) : List (List ℚ) := m.arrays.getD r []

def Mem.write (m : Mem) (r : ℕ) (v : List (List ℚ)) : Mem := ⟨m.arrays.set r v⟩

/-- The loop of `subtract_templates`, writing each `-=` back to `buf`. -/
def subtractGo (A : SubtractArgs) (m : Mem) (buf : ℕ) : List ℕ → Mem × Bool
  | [] => (m, true)
  | index :: rest =>
    match subtractStep A (m.read buf) index with
    | none => (m, false)
    | some v => subtractGo A (m.write buf v) buf rest

/-- `subtract_templates` against the store: `traces = traces.copy()` allocates
a fresh buffer; the loop mutates only that buffer; the result (when no
exception is raised) is the fresh buffer's reference. -/
def subtract_templatesM (m : Mem) (tracesRef : ℕ) (A : SubtractArgs) : Mem × Option ℕ :=
  let buf := m.arrays.length
  let m1 : Mem := ⟨m.arrays ++ [m.read tracesRef]⟩
  match subtractGo A m1 buf (List.range A.spike_templates.length) with
  | (m2, true) => (m2, some buf)
  | (m2, false) => (m2, none)

/-!
### Spec-side definitions (for refinement comparison)
-/

/-- Follows the spec's words for C1: the similarity score of clusters
`ci`, `cj` is "the maximum, over all pairs (t_i active in the source cluster,
t_j active in the other cluster), of the precomputed template-pair similarity
value". -/
def specPairSimilarity (M : Model) (ci cj : ℕ) : Option ℚ :=
  listMax ((activeTemplates M ci).flatMap (fun ti =>
    (activeTemplates M cj).map (fun tj => simST M ti tj)))

/-- The column formula the code actually uses for `cj < n_templates`: the
maximum over the source cluster's active templates of column `cj` of the
similarity matrix (the cluster id used as a template id). -/
def specColSimilarity (M : Model) (ci cj : ℕ) : Option ℚ :=
  listMax ((activeTemplates M ci).map (fun ti => simST M ti cj))

/-!
### Concrete instances used by counterexamples and witnesses
-/

/-- Two templates and two singleton clusters. Cluster `0` (an id below
`n_templates = 2`) has all of its spikes on template `1`, so its active
template set is `{1}`, not `{0}`. -/
def M0 : Model := {
  n_templates := 2
  spike_templates := [1, 1]
  spike_clusters := [0, 1]
  spike_times := [0, 1]
  amplitudes := [1, 1]
  similar_templates := [[1, 0], [0, 1]]
  template_features := [[1, 2], [3, 4]]
  templates_channels := [[0], [0]]
  templates_best_channel := [0, 0]
  features := [[1], [1]]
  traces := [[0], [0]]
  n_samples_templates := 2
  sample_rate := 1
  colorOf := fun _ => 0 }

/-- Two templates; clusters `1` (below `n_templates`) and `5` (at least
`n_templates`, as after a merge), active on templates 0 and 1 respectively,
with tied similarity scores. -/
def M1 : Model := {
  n_templates := 2
  spike_templates := [0, 1]
  spike_clusters := [1, 5]
  spike_times := [0, 1]
  amplitudes := [1, 1]
  similar_templates := [[3, 2], [2, 3]]
  template_features := [[1, 2], [3, 4]]
  templates_channels := [[0], [0]]
  templates_best_channel := [0, 0]
  features := [[1], [1]]
  traces := [[0], [0]]
  n_samples_templates := 2
  sample_rate := 1
  colorOf := fun _ => 0 }

/-- A dataset with 10001 spikes (all other data immaterial to spike-id
selection). -/
def MC4 : Model := {
  n_templates := 1
  spike_templates := List.replicate 10001 0
  spike_clusters := List.replicate 10001 0
  spike_times := List.replicate 10001 0
  amplitudes := List.replicate 10001 1
  similar_templates := [[1]]
  template_features := List.replicate 10001 [1]
  templates_channels := [[0]]
  templates_best_channel := [0]
  features := List.replicate 10001 [1]
  traces := [[0]]
  n_samples_templates := 2
  sample_rate := 1
  colorOf := fun _ => 0 }

/-- Ten trace samples, two spikes at times 2 and 9; with `k = 1` the second
spike's window `[9 - 1, 9 + 1)` hits the slice end for the interval
`[0, 10)`. -/
def Mtr : Model := {
  n_templates := 1
  spike_templates := [0, 0]
  spike_clusters := [0, 0]
  spike_times := [2, 9]
  amplitudes := [1, 1]
  similar_templates := [[1]]
  template_features := [[1], [1]]
  templates_channels := [[0]]
  templates_best_channel := [0]
  features := [[1], [1]]
  traces := [[0], [10], [20], [30], [40], [50], [60], [70], [80], [90]]
  n_samples_templates := 2
  sample_rate := 1
  colorOf := fun _ => 7 }

/-- A 4-sample, 1-channel trace buffer. -/
def tracesC : List (List ℚ) := [[0], [0], [0], [0]]

/-- One spike of template length 2 at time `-2`: its target window
`[-3, -1)` lies fully before the buffer. -/
def argsBefore : SubtractArgs := {
  start := 0
  spike_times := [-2]
  amplitudes := [1]
  spike_templates := [[[1], [1]]]
  sample_rate := 1 }

/-- One spike of template length 2 at time `2`, fully inside the buffer. -/
def argsInside : SubtractArgs := {
  start := 0
  spike_times := [2]
  amplitudes := [2]
  spike_templates := [[[1], [1]]]
  sample_rate := 1 }

end PhyContrib

/-!
## Theorems

Helper lemmas first, then one theorem per claim (with witnesses for the
theorems that carry hypotheses).
-/

namespace PhyContrib

/-- Characterisation of `np.max` over `ℚ`: the maximum is a member that
dominates the list. -/
theorem listMax_eq_some_iff {l : List ℚ} {a : ℚ} :
    listMax l = some a ↔ a ∈ l ∧ ∀ b ∈ l, b ≤ a := by
  have anti : Std.Antisymm ((· : ℚ) ≤ ·) := ⟨@fun _ _ h h2 => le_antisymm h h2⟩
  exact List.max?_eq_some_iff le_refl max_choice (fun _ _ _ => max_le_iff)

/-- `np.arange` length formula. -/
theorem arange_length (s e st : ℕ) : (arange s e st).length = (e - s + st - 1) / st := by
  simp [arange]

/-- `np.arange` entries. -/
theorem arange_getD (s e st k : ℕ) (h : k < (arange s e st).length) :
    (arange s e st).getD k 0 = s + k * st := by
  simp only [arange] at h ⊢
  rw [List.getD_eq_getElem?_getD]
  rw [List.getElem?_map]
  simp only [List.length_map, List.length_range] at h
  simp [List.getElem?_range h]

/-- C4, counterexample: on a dataset with 10001 spikes, the background
selection `_get_spike_ids(None)` returns 10001 spike indices, which exceeds
`N = n_spikes_features = 10000`; the claimed bound "at most N" is false. -/
theorem C4_counterexample :
    ¬ (_get_spike_ids MC4 none).length ≤ n_spikes_features := by
  have hn : MC4.n_spikes = 10001 := by
    show (List.replicate 10001 (0:ℚ)).length = 10001
    exact List.length_replicate _ _
  have h : (_get_spike_ids MC4 none).length = 10001 := by
    show (arange 0 MC4.n_spikes (max 1 (MC4.n_spikes / n_spikes_features))).length = 10001
    rw [arange_length, hn]
    norm_num [n_spikes_features]
  rw [h]
  norm_num [n_spikes_features]

/-- C4, amended: with no cluster given, `_get_spike_ids` returns the
fixed-stride subsample `np.arange(0, n_spikes, stride)` with
`stride = max(1, n_spikes // 10000)`: entry `k` is `k * stride` and is a
valid spike index, and the count is `⌈n_spikes / stride⌉` — which is at most
`2 * 10000 - 1` but (contrary to the claim) can exceed 10000. -/
theorem C4_background_selection (M : Model) :
    (∀ k, k < (_get_spike_ids M none).length →
        (_get_spike_ids M none).getD k 0 = k * max 1 (M.n_spikes / n_spikes_features) ∧
        (_get_spike_ids M none).getD k 0 < M.n_spikes) ∧
    (_get_spike_ids M none).length
      = (M.n_spikes + max 1 (M.n_spikes / n_spikes_features) - 1)
          / max 1 (M.n_spikes / n_spikes_features) ∧
    (_get_spike_ids M none).length ≤ 2 * n_spikes_features - 1 := by
  have hids : _get_spike_ids M none
      = arange 0 M.n_spikes (max 1 (M.n_spikes / n_spikes_features)) := rfl
  set ns := M.n_spikes with hns
  set st := max 1 (ns / n_spikes_features) with hstdef
  have hst : 1 ≤ st := le_max_left _ _
  have hlen : (_get_spike_ids M none).length = (ns + st - 1) / st := by
    rw [hids, arange_length]
    norm_num
  refine ⟨?_, by rw [hlen], ?_⟩
  · intro k hk
    have hkst : (arange 0 ns st).getD k 0 = k * st := by
      have := arange_getD 0 ns st k (by rw [← hids]; exact hk)
      simpa using this
    refine ⟨by rw [hids, hkst], ?_⟩
    rw [hids, hkst]
    rw [hlen] at hk
    have hns1 : 1 ≤ ns := by
      rcases Nat.eq_zero_or_pos ns with h0 | h1
      · rw [h0] at hk
        have : (0 + st - 1) / st = 0 := Nat.div_eq_of_lt (by omega)
        omega
      · exact h1
    have h2 : ((ns + st - 1) / st) * st ≤ ns + st - 1 := Nat.div_mul_le_self _ _
    have h3 : (k + 1) * st ≤ ((ns + st - 1) / st) * st :=
      Nat.mul_le_mul_right st hk
    have h4 : k * st + st ≤ ns + st - 1 := by
      calc k * st + st = (k + 1) * st := by ring
      _ ≤ ((ns + st - 1) / st) * st := h3
      _ ≤ ns + st - 1 := h2
    have h5 : k * st < ns := by omega
    exact h5
  · rw [hlen]
    have hN : n_spikes_features = 10000 := rfl
    rcases lt_or_le ns 10000 with hlt | hge
    · have hq : ns / n_spikes_features = 0 := Nat.div_eq_of_lt (by omega)
      have hst1 : st = 1 := by rw [hstdef, hq]; simp
      rw [hst1, hN]
      omega
    · have hq1 : 1 ≤ ns / n_spikes_features :=
        (Nat.one_le_div_iff (by rw [hN]; omega)).2 (by rw [hN]; omega)
      set q := ns / n_spikes_features with hqdef
      have hstq : st = q := max_eq_right hq1
      have hmod : n_spikes_features * q + ns % n_spikes_features = ns :=
        Nat.div_add_mod ns n_spikes_features
      have hr : ns % n_spikes_features < 10000 := by
        rw [← hN]; exact Nat.mod_lt _ (by rw [hN]; omega)
      by_contra hcon
      push_neg at hcon
      have h20 : 2 * n_spikes_features - 1 + 1 ≤ (ns + st - 1) / st := hcon
      have h1 : (2 * n_spikes_features - 1 + 1) * q ≤ ((ns + st - 1) / st) * q := by
        exact Nat.mul_le_mul_right q h20
      have h2 : ((ns + st - 1) / st) * q ≤ ns + q - 1 := by
        rw [hstq]
        exact Nat.div_mul_le_self _ _
      have h3 : (2 * n_spikes_features - 1 + 1) * q ≤ ns + q - 1 := le_trans h1 h2
      rw [hN] at h3 hmod
      omega

/-- C9: `_get_features` fails with the `AssertionError` contract violation
exactly when neither a cluster id nor channel ids are supplied; every other
input combination never produces that failure. -/
theorem C9_features_contract (M : Model) (co : Option ℕ) (ch : Option (List ℕ)) :
    _get_features M co ch = .error .assertionError ↔ co = none ∧ ch = none := by
  cases co with
  | none => cases ch <;> simp [_get_features]
  | some c =>
    cases h : get_best_channels M c <;> simp [_get_features, h]

/-- Witness for C4: on the 10001-spike dataset, index 1 of the background
selection is `1 * stride`, is a valid spike index, and the selection length
respects the (amended) `2 * 10000 - 1` bound. -/
theorem C4_background_selection_witness :
    (_get_spike_ids MC4 none).getD 1 0 = 1 * max 1 (MC4.n_spikes / n_spikes_features) ∧
    (_get_spike_ids MC4 none).getD 1 0 < MC4.n_spikes ∧
    (_get_spike_ids MC4 none).length ≤ 2 * n_spikes_features - 1 := by
  have hn : MC4.n_spikes = 10001 := by
    show (List.replicate 10001 (0:ℚ)).length = 10001
    exact List.length_replicate _ _
  have hlen : (_get_spike_ids MC4 none).length = 10001 := by
    show (arange 0 MC4.n_spikes (max 1 (MC4.n_spikes / n_spikes_features))).length = 10001
    rw [arange_length, hn]
    norm_num [n_spikes_features]
  obtain ⟨h1, _, h3⟩ := C4_background_selection MC4
  obtain ⟨ha, hb⟩ := h1 1 (by omega)
  exact ⟨ha, hb, h3⟩

/-!
### `uniqueSorted` and `np.argmax`
-/

theorem mem_le_foldr_max {l : List ℕ} {t : ℕ} (h : t ∈ l) : t ≤ l.foldr max 0 := by
  induction l with
  | nil => cases h
  | cons x xs ih =>
    rcases List.mem_cons.mp h with rfl | hx
    · exact le_max_left _ _
    · exact le_trans (ih hx) (le_max_right _ _)

theorem mem_uniqueSorted {l : List ℕ} {t : ℕ} : t ∈ uniqueSorted l ↔ t ∈ l := by
  constructor
  · intro h
    have := List.mem_filter.mp h
    simpa using this.2
  · intro h
    refine List.mem_filter.mpr ⟨List.mem_range.mpr ?_, by simpa using h⟩
    exact Nat.lt_succ_of_le (mem_le_foldr_max h)

theorem uniqueSorted_pairwise (l : List ℕ) : (uniqueSorted l).Pairwise (· < ·) :=
  (List.pairwise_lt_range _).filter _

/-- C10: for a cluster with at least one spike, `get_template_for_cluster`
returns a template id with the maximal spike count in the cluster, the
smallest such id in case of ties, and that id is what `get_best_channels`
and `get_best_channel` read the channel data from. -/
theorem C10_dominant_template (M : Model) (c : ℕ) (h : spikes_per_cluster M c ≠ []) :
    (get_template_for_cluster M c).isSome ∧
    (∀ t, templateCount M c t ≤ templateCount M c ((get_template_for_cluster M c).getD 0)) ∧
    (∀ t, templateCount M c t = templateCount M c ((get_template_for_cluster M c).getD 0) →
        (get_template_for_cluster M c).getD 0 ≤ t) ∧
    get_best_channels M c
      = some (M.templates_channels.getD ((get_template_for_cluster M c).getD 0) []) ∧
    get_best_channel M c
      = some (M.templates_best_channel.getD ((get_template_for_cluster M c).getD 0) 0) := by
  classical
  set sts := (spikes_per_cluster M c).map (fun i => M.spike_templates.getD i 0) with hsts
  set tids := uniqueSorted sts with htids
  set counts := tids.map (fun t => (sts.filter (fun s => decide (s = t))).length) with hcounts
  -- the per-template count agrees with `templateCount`
  have hcount_eq : ∀ t, templateCount M c t = (sts.filter (fun s => decide (s = t))).length := by
    intro t
    rw [templateCount, hsts, List.filter_map, List.length_map]
    rfl
  -- non-emptiness chain
  have hsts_ne : sts ≠ [] := by
    rw [hsts]
    simpa using h
  obtain ⟨t0, ts0, hts0⟩ := List.exists_cons_of_ne_nil hsts_ne
  have ht0 : t0 ∈ sts := by rw [hts0]; exact List.mem_cons_self _ _
  have ht0tids : t0 ∈ tids := mem_uniqueSorted.mpr ht0
  have htids_ne : tids ≠ [] := List.ne_nil_of_mem ht0tids
  have hcounts_ne : counts ≠ [] := by
    rw [hcounts]
    simpa using htids_ne
  obtain ⟨m, hm⟩ := Option.ne_none_iff_exists'.mp
    (fun hnone => hcounts_ne (List.max?_eq_none_iff.mp hnone))
  obtain ⟨hm_mem, hm_ub⟩ := List.max?_eq_some_iff'.mp hm
  -- the argmax index
  set a := counts.findIdx (fun cnt => decide (cnt = m)) with ha
  have halt : a < counts.length :=
    List.findIdx_lt_length_of_exists ⟨m, hm_mem, by simp⟩
  have haltt : a < tids.length := by
    rw [hcounts, List.length_map] at halt
    exact halt
  have hcounts_a : counts.get ⟨a, halt⟩ = m := by
    have := @List.findIdx_getElem ℕ (fun cnt => decide (cnt = m)) counts halt
    simpa [List.get_eq_getElem] using this
  have hfirst : ∀ j (hj : j < a), ¬ (counts.get ⟨j, lt_trans hj halt⟩ = m) := by
    intro j hj hcj
    have := (@List.findIdx_eq ℕ (fun cnt => decide (cnt = m)) counts a halt).mp ha.symm
    exact absurd (by simpa using this.2 j hj) (by simpa [List.get_eq_getElem] using hcj)
  -- the returned template id
  have hret : get_template_for_cluster M c = some (tids.get ⟨a, haltt⟩) := by
    show (match counts.max? with
      | none => none
      | some m => tids.get? (counts.findIdx (fun cnt => decide (cnt = m))))
        = some (tids.get ⟨a, haltt⟩)
    rw [hm]
    show tids.get? a = some (tids.get ⟨a, haltt⟩)
    rw [List.get?_eq_getElem?, List.getElem?_eq_getElem haltt, List.get_eq_getElem]
  set tid := tids.get ⟨a, haltt⟩ with htid
  have hgetD : (get_template_for_cluster M c).getD 0 = tid := by rw [hret]; rfl
  -- counts[i] is the count of tids[i]
  have hcount_at : ∀ i (hi : i < tids.length) (hi2 : i < counts.length),
      counts.get ⟨i, hi2⟩
        = (sts.filter (fun s => decide (s = tids.get ⟨i, hi⟩))).length := by
    intro i hi hi2
    simp only [hcounts, List.get_eq_getElem, List.getElem_map]
  have htidcount : templateCount M c tid = m := by
    rw [hcount_eq, ← hcount_at a haltt halt, hcounts_a]
  -- any template with a positive count occurs in `tids`
  have hmem_of_pos : ∀ t, 0 < templateCount M c t → t ∈ tids := by
    intro t hpos
    rw [hcount_eq] at hpos
    have hne : sts.filter (fun s => decide (s = t)) ≠ [] := by
      intro hnil
      rw [hnil] at hpos
      simp at hpos
    rcases List.exists_mem_of_ne_nil _ hne with ⟨s, hs⟩
    have := List.mem_filter.mp hs
    have hst : s = t := by simpa using this.2
    exact mem_uniqueSorted.mpr (hst ▸ this.1)
  -- maximality
  have hmax : ∀ t, templateCount M c t ≤ templateCount M c tid := by
    intro t
    rcases Nat.eq_zero_or_pos (templateCount M c t) with h0 | hpos
    · rw [h0, htidcount]
      exact Nat.zero_le _
    · obtain ⟨i, hi, hti⟩ := List.mem_iff_getElem.mp (hmem_of_pos t hpos)
      have hi2 : i < counts.length := by
        rw [hcounts, List.length_map]
        exact hi
      have hmemc : counts.get ⟨i, hi2⟩ ∈ counts := by
        rw [List.get_eq_getElem]
        exact List.getElem_mem _
      have hti2 : tids.get ⟨i, hi⟩ = t := by
        rw [List.get_eq_getElem]
        exact hti
      have hle := hm_ub _ hmemc
      rw [hcount_at i hi hi2, hti2] at hle
      rw [htidcount, hcount_eq]
      exact hle
  -- smallest among the tied maxima
  have hmin : ∀ t, templateCount M c t = templateCount M c tid → tid ≤ t := by
    intro t ht
    have hm1 : 0 < m := by
      have h1 : 0 < templateCount M c t0 := by
        rw [hcount_eq]
        have : t0 ∈ sts.filter (fun s => decide (s = t0)) :=
          List.mem_filter.mpr ⟨ht0, by simp⟩
        exact List.length_pos.mpr (List.ne_nil_of_mem this)
      exact lt_of_lt_of_le h1 (by rw [← htidcount]; exact hmax t0)
    have hpos : 0 < templateCount M c t := by rw [ht, htidcount]; exact hm1
    obtain ⟨i, hi, hti⟩ := List.mem_iff_getElem.mp (hmem_of_pos t hpos)
    have hi2 : i < counts.length := by
      rw [hcounts, List.length_map]
      exact hi
    have hti2 : tids.get ⟨i, hi⟩ = t := by
      rw [List.get_eq_getElem]
      exact hti
    have hci : counts.get ⟨i, hi2⟩ = m := by
      rw [hcount_at i hi hi2, hti2, ← hcount_eq, ht, htidcount]
    rcases lt_or_le i a with hia | hai
    · exact absurd hci (hfirst i hia)
    · rcases Nat.eq_or_lt_of_le hai with rfl | hlt
      · rw [← hti, htid, List.get_eq_getElem]
      · have hp := List.pairwise_iff_getElem.mp (htids ▸ uniqueSorted_pairwise sts)
        have halti := hp a i haltt hi hlt
        rw [hti] at halti
        rw [htid, List.get_eq_getElem]
        exact le_of_lt halti
  refine ⟨by rw [hret]; rfl, ?_, ?_, ?_, ?_⟩
  · rw [hgetD]; exact hmax
  · rw [hgetD]; exact hmin
  · rw [hgetD, get_best_channels, hret]; rfl
  · rw [hgetD, get_best_channel, hret]; rfl

/-- Sum of a replicated zero list. -/
theorem foldl_add_replicate_zero (n : ℕ) (acc : ℚ) :
    (List.replicate n (0:ℚ)).foldl (· + ·) acc = acc := by
  induction n generalizing acc with
  | zero => rfl
  | succ k ih =>
    rw [List.replicate_succ, List.foldl_cons, add_zero]
    exact ih acc

/-- C5: whenever `_get_template_features` succeeds, its bounds tuple is
`(min of the x minima, min of the y minima, max of the y maxima, max of the
y maxima)` — the fourth ("max x") slot duplicates the y-derived maximum. -/
theorem C5_bounds (M : Model) (cids : List ℕ) (b : TFBunch)
    (h : _get_template_features M cids = .ok b) :
    some b.data_bounds.1 = omin2 (listMin b.x0) (listMin b.x1) ∧
    some b.data_bounds.2.1 = omin2 (listMin b.y0) (listMin b.y1) ∧
    some b.data_bounds.2.2.1 = omax2 (listMax b.y0) (listMax b.y1) ∧
    b.data_bounds.2.2.2 = b.data_bounds.2.2.1 := by
  rw [_get_template_features] at h
  split at h
  · split at h
    · split at h
      · rename_i hmin0 hmin1 hmin2 hmin3 hmax0 hmax1
        rw [Except.ok.injEq] at h
        subst h
        simp [omin2, omax2, hmin0, hmin1, hmin2, hmin3, hmax0, hmax1, min_comm]
      · exact absurd h (by simp)
    all_goals exact absurd h (by simp)
  · exact absurd h (by simp)

/-- Witness for C5 at the concrete dataset `M0` and the cluster pair
`[0, 1]`. -/
theorem C5_bounds_witness :
    some ((2:ℚ), (2:ℚ), (4:ℚ), (4:ℚ)).1
      = omin2 (listMin [(2:ℚ)]) (listMin [(4:ℚ)]) ∧
    _get_template_features M0 [0, 1] = .ok ⟨[2], [2], [4], [4], (2, 2, 4, 4)⟩ := by
  have hok : _get_template_features M0 [0, 1] = .ok ⟨[2], [2], [4], [4], (2, 2, 4, 4)⟩ := by
    with_unfolding_all decide
  exact ⟨(C5_bounds M0 [0, 1] _ hok).1, hok⟩

/-- C3, counterexample: cluster 5 of `M0` has no spikes, yet `similarity`
and `_get_waveforms` raise (`none` / `.error` model the raised numpy
errors) instead of returning an empty or neutral result. -/
theorem C3_counterexample :
    spikes_per_cluster M0 5 = [] ∧
    similarity M0 5 = none ∧
    _get_waveforms M0 5 = .error .valueError := by
  refine ⟨by decide, by decide, by decide⟩

/-- C3, amended: on a cluster with zero spikes, `similarity`,
`_get_waveforms`, `_get_features` and `_get_template_features` all raise
(empty `np.max`/`np.argmax` reductions or a zero weight sum); only
`_get_amplitudes` (and the spike selection itself) returns an empty result. -/
theorem C3_empty_cluster (M : Model) (c d : ℕ) (h : spikes_per_cluster M c = []) :
    similarity M c = none ∧
    _get_waveforms M c = .error .valueError ∧
    (∀ ch, _get_features M (some c) ch = .error .valueError) ∧
    _get_template_features M [c, d] = .error .zeroDivisionError ∧
    _get_amplitudes M c = ⟨[], []⟩ := by
  have hcount : ∀ t, templateCount M c t = 0 := by
    intro t
    rw [templateCount, h]
    rfl
  have hact : activeTemplates M c = [] := by
    rw [activeTemplates]
    refine List.filter_eq_nil_iff.mpr ?_
    intro t _
    simp [hcount t]
  have hgt : get_template_for_cluster M c = none := by
    rw [get_template_for_cluster, h]
    rfl
  have hall : (List.range M.n_spikes).filter
      (fun i => [c].contains (M.spike_clusters.getD i 0)) = [] := by
    refine List.filter_eq_nil_iff.mpr ?_
    intro a ha
    have := List.filter_eq_nil_iff.mp h a ha
    simpa using this
  have hsel : ∀ n, select_spikes M [c] n = [] := by
    intro n
    simp only [select_spikes, hall]
    split
    · rfl
    · simp
  refine ⟨?_, ?_, ?_, ?_, ?_⟩
  · rw [similarity]
    have hrow : simsRow M c = none := by
      rw [simsRow, hact]
    rw [hrow]
  · rw [_get_waveforms, get_best_channels, hgt]
    rfl
  · intro ch
    rw [_get_features, get_best_channels, hgt]
    rfl
  · have hn0 : tfWeights M ([c, d].getD 0 0) = List.replicate M.n_templates 0 := by
      show tfWeights M c = List.replicate M.n_templates 0
      rw [tfWeights, get_template_counts, List.map_map]
      have hfz : ((Nat.cast : ℕ → ℚ) ∘ fun t => templateCount M c t) = fun _ => (0 : ℚ) := by
        funext t
        simp [hcount t]
      rw [hfz, List.map_const']
      simp
    have hz : (tfWeights M ([c, d].getD 0 0)).foldl (· + ·) 0 = 0 := by
      rw [hn0]
      exact foldl_add_replicate_zero _ _
    rw [_get_template_features]
    have hlen2 : ([c, d] : List ℕ).length = 2 := rfl
    rw [if_pos hlen2]
    have hdavid : npAverage (tfRows M ([c, d].getD 0 0)) (tfWeights M ([c, d].getD 0 0))
        = .error .zeroDivisionError := by
      rw [npAverage, if_pos hz]
    rw [hdavid]
    cases hB : npAverage (tfRows M ([c, d].getD 0 0)) (tfWeights M ([c, d].getD 1 0)) <;>
      cases hC : npAverage (tfRows M ([c, d].getD 1 0)) (tfWeights M ([c, d].getD 0 0)) <;>
        cases hD : npAverage (tfRows M ([c, d].getD 1 0)) (tfWeights M ([c, d].getD 1 0)) <;>
          rfl
  · rw [_get_amplitudes, hsel]
    rfl

/-- Witness for C3 (amended) at `M0` and its empty cluster 5. -/
theorem C3_empty_cluster_witness :
    similarity M0 5 = none ∧
    _get_waveforms M0 5 = .error .valueError ∧
    _get_features M0 (some 5) none = .error .valueError ∧
    _get_template_features M0 [5, 0] = .error .zeroDivisionError ∧
    _get_amplitudes M0 5 = ⟨[], []⟩ := by
  obtain ⟨h1, h2, h3, h4, h5⟩ := C3_empty_cluster M0 5 0 (by decide)
  exact ⟨h1, h2, h3 none, h4, h5⟩

/-- C2 (code bug): a spike whose clipped target window lies fully *before*
the buffer leaves an empty clipped template but a non-empty negative-stop
slice `traces[0:t+j]`, so the in-place subtraction raises a numpy broadcast
`ValueError` (modelled by `none`) instead of contributing nothing: here the
buffer has 4 samples, the template length is 2 and the spike offset is
`t = -2`, so the window `[-3, -1)` is fully outside `[0, 4)`. -/
theorem C2_subtract_before_buffer_raises :
    pyRound ((argsBefore.spike_times.getD 0 0 - argsBefore.start) * argsBefore.sample_rate)
        + 1 ≤ 0 ∧
    subtract_templates tracesC argsBefore = none := by
  constructor
  · with_unfolding_all decide
  · with_unfolding_all decide

/-- Witness for C10 at the concrete dataset `M0`, cluster 0 (its one spike is
on template 1, so the dominant template is 1). -/
theorem C10_dominant_template_witness :
    (get_template_for_cluster M0 0).isSome ∧
    templateCount M0 0 0 ≤ templateCount M0 0 ((get_template_for_cluster M0 0).getD 0) ∧
    (templateCount M0 0 1 = templateCount M0 0 ((get_template_for_cluster M0 0).getD 0) →
        (get_template_for_cluster M0 0).getD 0 ≤ 1) ∧
    get_best_channels M0 0
      = some (M0.templates_channels.getD ((get_template_for_cluster M0 0).getD 0) []) := by
  obtain ⟨h1, h2, h3, h4, _⟩ := C10_dominant_template M0 0 (by decide)
  exact ⟨h1, h2 0, h3 1, h4⟩

/-!
### The similarity scores (C1)
-/

theorem activeTemplates_lt {M : Model} {c t : ℕ} (h : t ∈ activeTemplates M c) :
    t < M.n_templates :=
  List.mem_range.mp (List.mem_filter.mp h).1

/-- Every scored pair produced by `scoreAll` carries its cluster's
`_sim_ij` value. -/
theorem scoreAll_mem {M : Model} {sims : List ℚ} :
    ∀ {cs : List ℕ} {pairs : List (ℕ × ℚ)}, scoreAll M sims cs = some pairs →
      ∀ p ∈ pairs, p.1 ∈ cs ∧ simIJ M sims p.1 = some p.2 := by
  intro cs
  induction cs with
  | nil =>
    intro pairs h p hp
    rw [scoreAll] at h
    cases h
    cases hp
  | cons cj rest ih =>
    intro pairs h p hp
    rw [scoreAll] at h
    cases hs : simIJ M sims cj <;> cases hr : scoreAll M sims rest <;> rw [hs, hr] at h <;>
      cases h
    rcases List.mem_cons.mp hp with rfl | hpr
    · exact ⟨List.mem_cons_self _ _, hs⟩
    · obtain ⟨h1, h2⟩ := ih hr p hpr
      exact ⟨List.mem_cons_of_mem _ h1, h2⟩

/-- `scoreAll` scores the cluster list positionally. -/
theorem scoreAll_fst {M : Model} {sims : List ℚ} :
    ∀ {cs : List ℕ} {pairs : List (ℕ × ℚ)}, scoreAll M sims cs = some pairs →
      pairs.map Prod.fst = cs := by
  intro cs
  induction cs with
  | nil =>
    intro pairs h
    rw [scoreAll] at h
    cases h
    rfl
  | cons cj rest ih =>
    intro pairs h
    rw [scoreAll] at h
    cases hs : simIJ M sims cj <;> cases hr : scoreAll M sims rest <;> rw [hs, hr] at h <;>
      cases h
    rw [List.map_cons, ih hr]

/-- C1, counterexample: in `M0`, cluster 0 (id `< n_templates`) has active
template set `{1}`, so the claimed pair-maximum formula for its score
against itself gives `sim[1,1] = 1`; the code instead returns
`sims[0] = 0` — `similarity(0)` reports the pair `(0, 0)`. -/
theorem C1_counterexample :
    similarity M0 0 = some [(1, 1), (0, 0)] ∧
    specPairSimilarity M0 0 0 = some 1 ∧ ((1 : ℚ) ≠ 0) := by
  refine ⟨by decide, by decide, by norm_num⟩

/-- C1, amended: every score reported by `similarity` is, for a cluster id
`cj < n_templates`, the maximum of column `cj` of the similarity matrix
over the source's active templates (the cluster id used as a template id),
and only for `cj ≥ n_templates` the maximum over all active-template pairs
of the two clusters. -/
theorem C1_similarity_scores (M : Model) (ci : ℕ) (out : List (ℕ × ℚ))
    (h : similarity M ci = some out) :
    ∀ p ∈ out,
      (p.1 < M.n_templates → specColSimilarity M ci p.1 = some p.2) ∧
      (M.n_templates ≤ p.1 → specPairSimilarity M ci p.1 = some p.2) := by
  intro p hp
  rw [similarity] at h
  cases hrow : simsRow M ci with
  | none => rw [hrow] at h; cases h
  | some sims =>
    rw [hrow] at h
    obtain ⟨pairs, hpairs, hout⟩ := Option.map_eq_some'.mp h
    have hmem : p ∈ pairs := by
      have hperm := List.perm_insertionSort scoreGE pairs
      rw [← hout] at hp
      exact hperm.mem_iff.mp hp
    obtain ⟨-, hscore⟩ := scoreAll_mem hpairs p hmem
    rw [simsRow] at hrow
    cases hact : activeTemplates M ci with
    | nil => rw [hact] at hrow; cases hrow
    | cons t0 ts =>
      rw [hact] at hrow
      have hsims : sims = (List.range M.n_templates).map
          (fun j => (ts.map (fun t => simST M t j)).foldl max (simST M t0 j)) := by
        cases hrow
        rfl
      have hget : ∀ t, t < M.n_templates → sims.get? t
          = some ((ts.map (fun u => simST M u t)).foldl max (simST M t0 t)) := by
        intro t ht
        rw [hsims, List.get?_eq_getElem?, List.getElem?_map, List.getElem?_range ht]
        rfl
      have hgetD : ∀ t, t < M.n_templates → sims.getD t 0
          = (ts.map (fun u => simST M u t)).foldl max (simST M t0 t) := by
        intro t ht
        rw [List.getD_eq_getElem?_getD, hsims, List.getElem?_map, List.getElem?_range ht]
        rfl
      have hcolMax : ∀ t, listMax ((t0 :: ts).map (fun u => simST M u t))
          = some ((ts.map (fun u => simST M u t)).foldl max (simST M t0 t)) := fun t => rfl
      constructor
      · intro hlt
        rw [simIJ, if_pos hlt, hget p.1 hlt] at hscore
        rw [specColSimilarity, hact, hcolMax p.1]
        exact hscore
      · intro hge
        rw [simIJ, if_neg (not_lt.mpr hge)] at hscore
        obtain ⟨hmem2, hub2⟩ := listMax_eq_some_iff.mp hscore
        rw [specPairSimilarity, hact]
        refine listMax_eq_some_iff.mpr ⟨?_, ?_⟩
        · obtain ⟨tj, htj, htjval⟩ := List.mem_map.mp hmem2
          have htjlt : tj < M.n_templates := activeTemplates_lt htj
          rw [← htjval, hgetD tj htjlt]
          obtain ⟨hm, -⟩ := listMax_eq_some_iff.mp (hcolMax tj)
          obtain ⟨ti, hti, htival⟩ := List.mem_map.mp hm
          exact List.mem_flatMap.mpr ⟨ti, hti, List.mem_map.mpr ⟨tj, htj, htival⟩⟩
        · intro x hx
          obtain ⟨ti, hti, hx2⟩ := List.mem_flatMap.mp hx
          obtain ⟨tj, htj, htjx⟩ := List.mem_map.mp hx2
          have htjlt : tj < M.n_templates := activeTemplates_lt htj
          obtain ⟨-, hubcol⟩ := listMax_eq_some_iff.mp (hcolMax tj)
          have h1 : x ≤ (ts.map (fun u => simST M u tj)).foldl max (simST M t0 tj) :=
            hubcol x (List.mem_map.mpr ⟨ti, hti, htjx⟩)
          have h2 : sims.getD tj 0 ≤ p.2 :=
            hub2 _ (List.mem_map.mpr ⟨tj, htj, rfl⟩)
          rw [hgetD tj htjlt] at h2
          exact le_trans h1 h2

/-- Witness for C1 (amended) at `M1`: the score of cluster 1 (id below
`n_templates`) follows the column formula; the score of cluster 5 (id at
least `n_templates`) is the active-pair maximum. -/
theorem C1_similarity_scores_witness :
    specColSimilarity M1 1 1 = some 2 ∧ specPairSimilarity M1 1 5 = some 2 := by
  have h := C1_similarity_scores M1 1 [(1, 2), (5, 2)] (by decide)
  exact ⟨(h (1, 2) (by decide)).1 (by decide), (h (5, 2) (by decide)).2 (by decide)⟩

/-!
### The similarity ranking (C7)
-/

/-- C7: `similarity(ci)` returns one pair per current cluster id (the current
id list is duplicate-free, and the result's cluster ids are a permutation of
it), sorted by score in descending order, with tied scores keeping the
original iteration order over the current cluster ids (the ids of every
equal-score group form a subsequence of the iteration order). -/
theorem C7_similarity_ranking (M : Model) (ci : ℕ) (out : List (ℕ × ℚ))
    (h : similarity M ci = some out) :
    (out.map Prod.fst).Perm (clusterIds M) ∧
    (clusterIds M).Nodup ∧
    out.Pairwise (fun p q => q.2 ≤ p.2) ∧
    ∀ v : ℚ, ((out.filter (fun p => decide (p.2 = v))).map Prod.fst).Sublist
      (clusterIds M) := by
  rw [similarity] at h
  cases hrow : simsRow M ci with
  | none => rw [hrow] at h; cases h
  | some sims =>
    rw [hrow] at h
    obtain ⟨pairs, hpairs, hout⟩ := Option.map_eq_some'.mp h
    have hfst : pairs.map Prod.fst = clusterIds M := scoreAll_fst hpairs
    have hsorted : out = List.insertionSort scoreGE pairs := by
      rw [← hout, pySortDesc]
    have hperm : out.Perm pairs := by
      rw [hsorted]
      exact List.perm_insertionSort scoreGE pairs
    refine ⟨?_, ?_, ?_, ?_⟩
    · rw [← hfst]
      exact hperm.map Prod.fst
    · exact (uniqueSorted_pairwise _).imp (fun hlt => Nat.ne_of_lt hlt)
    · have := List.sorted_insertionSort scoreGE pairs
      rw [← hsorted] at this
      exact this.imp (fun hpq => hpq)
    · intro v
      set pred := (fun p : ℕ × ℚ => decide (p.2 = v)) with hpred
      have hc_pw : (pairs.filter pred).Pairwise scoreGE := by
        refine List.pairwise_of_forall_mem_list ?_
        intro a ha b hb
        have hav : a.2 = v := by simpa [hpred] using (List.mem_filter.mp ha).2
        have hbv : b.2 = v := by simpa [hpred] using (List.mem_filter.mp hb).2
        show b.2 ≤ a.2
        rw [hav, hbv]
      have hsub : (pairs.filter pred).Sublist out := by
        rw [hsorted]
        exact List.sublist_insertionSort hc_pw (List.filter_sublist pairs)
      have hpermf : (out.filter pred).Perm (pairs.filter pred) := hperm.filter pred
      have hcfilter : (pairs.filter pred).filter pred = pairs.filter pred :=
        List.filter_eq_self.mpr (fun a ha => (List.mem_filter.mp ha).2)
      have hsub2 : (pairs.filter pred).Sublist (out.filter pred) := by
        have := List.Sublist.filter pred hsub
        rw [hcfilter] at this
        exact this
      have heq : out.filter pred = pairs.filter pred :=
        (List.Sublist.eq_of_length hsub2 hpermf.length_eq.symm).symm
      rw [heq, ← hfst]
      exact ((List.filter_sublist pairs).map Prod.fst)

/-- Witness for C7 at `M1` and cluster 1: both reported clusters carry the
tied score 2 and appear in the iteration order `[1, 5]`. -/
theorem C7_similarity_ranking_witness :
    (([((1:ℕ), (2:ℚ)), (5, 2)]).map Prod.fst).Perm (clusterIds M1) ∧
    (clusterIds M1).Nodup ∧
    ([((1:ℕ), (2:ℚ)), (5, 2)]).Pairwise (fun p q => q.2 ≤ p.2) ∧
    ((([((1:ℕ), (2:ℚ)), (5, 2)]).filter (fun p => decide (p.2 = 2))).map Prod.fst).Sublist
      (clusterIds M1) := by
  obtain ⟨h1, h2, h3, h4⟩ := C7_similarity_ranking M1 1 [(1, 2), (5, 2)] (by decide)
  exact ⟨h1, h2, h3, h4 2⟩

/-!
### The frame effect of `subtract_templates` (C8)
-/

/-- The subtraction loop never touches any array other than its buffer. -/
theorem subtractGo_read_ne (A : SubtractArgs) :
    ∀ (idxs : List ℕ) (m : Mem) (buf q : ℕ), q ≠ buf →
      ((subtractGo A m buf idxs).1).read q = m.read q := by
  intro idxs
  induction idxs with
  | nil =>
    intro m buf q hq
    rfl
  | cons i rest ih =>
    intro m buf q hq
    rw [subtractGo]
    cases hstep : subtractStep A (m.read buf) i with
    | none => rfl
    | some v =>
      rw [ih (m.write buf v) buf q hq]
      show (m.arrays.set buf v).getD q [] = m.arrays.getD q []
      rw [List.getD_eq_getElem?_getD, List.getD_eq_getElem?_getD,
        List.getElem?_set_ne (fun hbq => hq hbq.symm)]

/-- The subtraction loop computes, in its buffer, exactly the fold that the
pure `subtract_templates` computes (and fails exactly when it fails). -/
theorem subtractGo_correct (A : SubtractArgs) :
    ∀ (idxs : List ℕ) (m : Mem) (buf : ℕ), buf < m.arrays.length →
      ((subtractGo A m buf idxs).2 = true ∧
          idxs.foldlM (subtractStep A) (m.read buf)
            = some (((subtractGo A m buf idxs).1).read buf)) ∨
      ((subtractGo A m buf idxs).2 = false ∧
          idxs.foldlM (subtractStep A) (m.read buf) = none) := by
  intro idxs
  induction idxs with
  | nil =>
    intro m buf _
    exact Or.inl ⟨rfl, rfl⟩
  | cons i rest ih =>
    intro m buf hbuf
    rw [subtractGo]
    cases hstep : subtractStep A (m.read buf) i with
    | none =>
      refine Or.inr ⟨rfl, ?_⟩
      show subtractStep A (m.read buf) i >>= (fun b => rest.foldlM (subtractStep A) b) = none
      rw [hstep]
      rfl
    | some v =>
      have hread : (m.write buf v).read buf = v := by
        show (m.arrays.set buf v).getD buf [] = v
        rw [List.getD_eq_getElem?_getD, List.getElem?_set_self hbuf]
        rfl
      have hlen : buf < (m.write buf v).arrays.length := by
        show buf < (m.arrays.set buf v).length
        rw [List.length_set]
        exact hbuf
      have hfold : (i :: rest).foldlM (subtractStep A) (m.read buf)
          = rest.foldlM (subtractStep A) v := by
        show subtractStep A (m.read buf) i >>= (fun b => rest.foldlM (subtractStep A) b)
          = rest.foldlM (subtractStep A) v
        rw [hstep]
        rfl
      rcases ih (m.write buf v) buf hlen with ⟨h1, h2⟩ | ⟨h1, h2⟩
      · refine Or.inl ⟨h1, ?_⟩
        rw [hfold, ← h2, hread]
      · refine Or.inr ⟨h1, ?_⟩
        rw [hfold, ← h2, hread]

/-- C8: `subtract_templates` never mutates the caller's trace buffer: after
the call the input array still holds its original rows, the returned buffer
(if the call does not raise) is a fresh one, and that fresh buffer holds
exactly the value of the pure fold on a copy of the input. -/
theorem C8_no_input_mutation (mem : Mem) (tracesRef : ℕ) (A : SubtractArgs)
    (h : tracesRef < mem.arrays.length) :
    ((subtract_templatesM mem tracesRef A).1).read tracesRef = mem.read tracesRef ∧
    (subtract_templatesM mem tracesRef A).2 ≠ some tracesRef ∧
    (((subtract_templatesM mem tracesRef A).2 = none ∧
        subtract_templates (mem.read tracesRef) A = none) ∨
      ((subtract_templatesM mem tracesRef A).2 = some mem.arrays.length ∧
        subtract_templates (mem.read tracesRef) A
          = some (((subtract_templatesM mem tracesRef A).1).read mem.arrays.length))) := by
  set buf := mem.arrays.length with hbufdef
  set m1 : Mem := ⟨mem.arrays ++ [mem.read tracesRef]⟩ with hm1
  have hne : tracesRef ≠ buf := Nat.ne_of_lt h
  have hm1len : buf < m1.arrays.length := by
    show buf < (mem.arrays ++ [mem.read tracesRef]).length
    rw [List.length_append]
    simp [hbufdef]
  have hm1buf : m1.read buf = mem.read tracesRef := by
    show (mem.arrays ++ [mem.read tracesRef]).getD mem.arrays.length [] = mem.read tracesRef
    rw [List.getD_eq_getElem?_getD, List.getElem?_concat_length]
    rfl
  have hm1ref : m1.read tracesRef = mem.read tracesRef := by
    show (mem.arrays ++ [mem.read tracesRef]).getD tracesRef [] = mem.read tracesRef
    rw [List.getD_eq_getElem?_getD, List.getElem?_append_left h,
      ← List.getD_eq_getElem?_getD]
    rfl
  have hunfold : subtract_templatesM mem tracesRef A
      = match subtractGo A m1 buf (List.range A.spike_templates.length) with
        | (m2, true) => (m2, some buf)
        | (m2, false) => (m2, none) := rfl
  have hframe := subtractGo_read_ne A (List.range A.spike_templates.length) m1 buf tracesRef hne
  have hcorrect := subtractGo_correct A (List.range A.spike_templates.length) m1 buf hm1len
  have hpure : subtract_templates (mem.read tracesRef) A
      = (List.range A.spike_templates.length).foldlM (subtractStep A) (m1.read buf) := by
    rw [hm1buf]
    rfl
  rcases hgo : subtractGo A m1 buf (List.range A.spike_templates.length) with ⟨m2, b⟩
  rw [hgo] at hframe hcorrect
  cases b with
  | true =>
    rw [hunfold, hgo]
    refine ⟨by rw [hframe, hm1ref], by simp [hne.symm], Or.inr ⟨rfl, ?_⟩⟩
    rcases hcorrect with ⟨-, h2⟩ | ⟨hfalse, -⟩
    · rw [hpure, h2]
    · cases hfalse
  | false =>
    rw [hunfold, hgo]
    refine ⟨by rw [hframe, hm1ref], by simp, Or.inl ⟨rfl, ?_⟩⟩
    rcases hcorrect with ⟨htrue, -⟩ | ⟨-, h2⟩
    · cases htrue
    · rw [hpure, h2]

/-- Witness for C8: a one-array store holding the 4-sample buffer, with one
fully-interior spike subtracted. -/
theorem C8_no_input_mutation_witness :
    ((subtract_templatesM ⟨[tracesC]⟩ 0 argsInside).1).read 0 = Mem.read ⟨[tracesC]⟩ 0 ∧
    (subtract_templatesM ⟨[tracesC]⟩ 0 argsInside).2 ≠ some 0 ∧
    (((subtract_templatesM ⟨[tracesC]⟩ 0 argsInside).2 = none ∧
        subtract_templates (Mem.read ⟨[tracesC]⟩ 0) argsInside = none) ∨
      ((subtract_templatesM ⟨[tracesC]⟩ 0 argsInside).2
          = some (Mem.arrays ⟨[tracesC]⟩).length ∧
        subtract_templates (Mem.read ⟨[tracesC]⟩ 0) argsInside
          = some (((subtract_templatesM ⟨[tracesC]⟩ 0 argsInside).1).read
              (Mem.arrays ⟨[tracesC]⟩).length))) :=
  C8_no_input_mutation ⟨[tracesC]⟩ 0 argsInside (by decide)

/-!
### The trace window builder (C6)
-/

/-- In a sorted list, the elements strictly below `v` form a prefix whose
length is `searchsortedL`: position `i` is below `v` iff `i` is below the
insertion point. -/
theorem sorted_lt_iff_lt_searchsorted {ts : List ℚ} (hs : ts.Pairwise (· ≤ ·)) (v : ℚ) :
    ∀ i (hi : i < ts.length), (ts[i] < v ↔ i < searchsortedL ts v) := by
  induction ts with
  | nil =>
    intro i hi
    cases (Nat.not_lt_zero i) hi
  | cons t rest ih =>
    have hhead : ∀ y ∈ rest, t ≤ y := (List.pairwise_cons.mp hs).1
    have hrest := (List.pairwise_cons.mp hs).2
    intro i hi
    rw [searchsortedL, List.countP_cons]
    by_cases hkv : t < v
    · rw [if_pos (by simpa using hkv)]
      cases i with
      | zero =>
        simp only [List.getElem_cons_zero]
        exact ⟨fun _ => by omega, fun _ => hkv⟩
      | succ j =>
        have hj : j < rest.length := Nat.lt_of_succ_lt_succ hi
        have hih := ih hrest j hj
        rw [searchsortedL] at hih
        rw [List.getElem_cons_succ, hih]
        omega
    · rw [if_neg (by simpa using hkv)]
      have hzero : rest.countP (fun x => decide (x < v)) = 0 := by
        rw [List.countP_eq_zero]
        intro y hy
        simp only [decide_eq_true_eq]
        intro hyv
        exact hkv (lt_of_le_of_lt (hhead y hy) hyv)
      cases i with
      | zero =>
        simp only [List.getElem_cons_zero, hzero]
        exact ⟨fun hc => absurd hc hkv, fun hc => absurd hc (by omega)⟩
      | succ j =>
        have hj : j < rest.length := Nat.lt_of_succ_lt_succ hi
        simp only [List.getElem_cons_succ, hzero]
        constructor
        · intro hlt
          exact absurd (lt_of_le_of_lt (hhead _ (List.getElem_mem hj)) hlt) hkv
        · intro hc
          exact absurd hc (by omega)

/-- `mapM` of a success-tagging function returns the original list. -/
theorem mapM_tag_eq {α γ : Type} (g : α → Option γ) :
    ∀ {l l' : List α}, (l.mapM (fun a => (g a).map (fun _ => a))) = some l' → l' = l := by
  intro l
  induction l with
  | nil =>
    intro l' h
    rw [List.mapM_nil] at h
    cases h
    rfl
  | cons a rest ih =>
    intro l' h
    rw [List.mapM_cons] at h
    cases hga : g a with
    | none =>
      rw [hga] at h
      cases h
    | some v =>
      rw [hga] at h
      cases hrest : rest.mapM (fun a => (g a).map (fun _ => a)) with
      | none =>
        rw [hrest] at h
        cases h
      | some bs =>
        rw [hrest] at h
        cases h
        rw [ih hrest]

/-- A `filterMap` that either drops or tags is a `filter` plus a `map`. -/
theorem filterMap_if_not {α β : Type} (p : α → Bool) (g : α → β) :
    ∀ l : List α, l.filterMap (fun a => if p a then none else some (g a))
      = (l.filter (fun a => !p a)).map g := by
  intro l
  induction l with
  | nil => rfl
  | cons a rest ih =>
    by_cases h : p a
    · rw [List.filterMap_cons, List.filter_cons]
      simp [h, ih]
    · rw [List.filterMap_cons, List.filter_cons]
      simp [h, ih]

/-- `pySlice` of an in-bounds, well-ordered index pair has `sb - sa` rows. -/
theorem pySlice_length_of_bounds {α : Type} (l : List α) (sa sb : ℤ)
    (h0 : 0 ≤ sa) (h01 : sa ≤ sb) (h1 : sb ≤ (l.length : ℤ)) :
    ((pySlice l sa sb).length : ℤ) = sb - sa := by
  rw [pySlice]
  show (((l.drop (resolveIdx l.length sa)).take
      (resolveIdx l.length sb - resolveIdx l.length sa)).length : ℤ) = sb - sa
  rw [resolveIdx, resolveIdx, if_neg (not_lt.mpr h0), if_neg (not_lt.mpr (le_trans h0 h01))]
  rw [List.length_take, List.length_drop]
  have e0 : (sa.toNat : ℤ) = sa := Int.toNat_of_nonneg h0
  have e1 : (sb.toNat : ℤ) = sb := Int.toNat_of_nonneg (le_trans h0 h01)
  have l1 : sa.toNat ≤ l.length := Int.toNat_le.mpr (le_trans h01 h1)
  have l2 : sb.toNat ≤ l.length := Int.toNat_le.mpr h1
  omega

/-- C6: on an interval `[t0, t1)` whose rounded endpoints lie inside the
recording, a successful `_get_traces` call returns a `s1 - s0`-row slice;
the `searchsorted` index range holds exactly the spikes whose time lies in
`[t0, t1)`; the emitted clips are exactly the non-skipped spikes of that
range, in spike order; and the skip test passes exactly when the window
`[s - k, s + k)` lies inside `[0, slice length)` — no partial-window clip
is ever emitted. -/
theorem C6_trace_window (M : Model) (t0 t1 : ℚ) (out : TracesBunch)
    (hs : M.spike_times.Pairwise (· ≤ ·))
    (h0 : 0 ≤ pyRound (t0 * M.sample_rate))
    (h01 : pyRound (t0 * M.sample_rate) ≤ pyRound (t1 * M.sample_rate))
    (h1 : pyRound (t1 * M.sample_rate) ≤ (M.traces.length : ℤ))
    (h : _get_traces M t0 t1 = some out) :
    ((select_traces M t0 t1).length : ℤ)
        = pyRound (t1 * M.sample_rate) - pyRound (t0 * M.sample_rate) ∧
    (∀ i, i < M.spike_times.length →
      ((i ∈ List.range' (searchsortedL M.spike_times t0)
          (searchsortedL M.spike_times t1 - searchsortedL M.spike_times t0)) ↔
        (t0 ≤ M.spike_times.getD i 0 ∧ M.spike_times.getD i 0 < t1))) ∧
    out.waveforms
      = ((List.range' (searchsortedL M.spike_times t0)
            (searchsortedL M.spike_times t1 - searchsortedL M.spike_times t0)).filter
          (fun i => !traceSkipB M t0 t1 i)).map
          (buildClip M (select_traces M t0 t1) (pyRound (t0 * M.sample_rate))) ∧
    (∀ i, traceSkipB M t0 t1 i = false ↔
      (0 ≤ spikeOffset M (pyRound (t0 * M.sample_rate)) i
          - ((M.n_samples_templates / 2 : ℕ) : ℤ) ∧
        spikeOffset M (pyRound (t0 * M.sample_rate)) i
            + ((M.n_samples_templates / 2 : ℕ) : ℤ)
          < ((select_traces M t0 t1).length : ℤ))) := by
  have hlen : ((select_traces M t0 t1).length : ℤ)
      = pyRound (t1 * M.sample_rate) - pyRound (t0 * M.sample_rate) := by
    rw [select_traces]
    exact pySlice_length_of_bounds M.traces _ _ h0 h01 h1
  refine ⟨hlen, ?_, ?_, ?_⟩
  · intro i hi
    have hchar0 := sorted_lt_iff_lt_searchsorted hs t0 i hi
    have hchar1 := sorted_lt_iff_lt_searchsorted hs t1 i hi
    rw [List.getD_eq_getElem M.spike_times 0 hi]
    constructor
    · intro hmem
      rw [List.mem_range'] at hmem
      obtain ⟨j, hj, hij⟩ := hmem
      have hge : searchsortedL M.spike_times t0 ≤ i := by omega
      have hlt : i < searchsortedL M.spike_times t1 := by omega
      exact ⟨le_of_not_lt (fun hc => absurd (hchar0.mp hc) (by omega)), hchar1.mpr hlt⟩
    · rintro ⟨ha, hb⟩
      have hlt : i < searchsortedL M.spike_times t1 := hchar1.mp hb
      have hge : searchsortedL M.spike_times t0 ≤ i :=
        le_of_not_lt (fun hc => absurd (hchar0.mpr hc) (not_lt.mpr ha))
      rw [List.mem_range']
      exact ⟨i - searchsortedL M.spike_times t0, by omega, by omega⟩
  · rw [_get_traces] at h
    obtain ⟨idxs, hidxs, hfun⟩ := Option.map_eq_some'.mp h
    have hidxseq : idxs = List.range' (searchsortedL M.spike_times t0)
        (searchsortedL M.spike_times t1 - searchsortedL M.spike_times t0) :=
      mapM_tag_eq _ hidxs
    have hwave : out.waveforms
        = (List.range' (searchsortedL M.spike_times t0)
            (searchsortedL M.spike_times t1 - searchsortedL M.spike_times t0)).filterMap
          (fun i => if traceSkipB M t0 t1 i then none
            else some (buildClip M (select_traces M t0 t1)
              (pyRound (t0 * M.sample_rate)) i)) := by
      rw [← hfun, hidxseq]
    rw [hwave, filterMap_if_not]
  · intro i
    rw [traceSkipB, hlen]
    simp only [Bool.or_eq_false_iff, decide_eq_false_iff_not, not_lt, not_le]

/-- Witness for C6 at `Mtr` and the interval `[0, 10)`: the slice has 10
rows, spike 0 (time 2) is in the searchsorted range, the single emitted
clip list matches the filtered range, and spike 1 (time 9, window `[8, 10)`)
fails the fit test. -/
theorem C6_trace_window_witness :
    ((select_traces Mtr 0 10).length : ℤ)
        = pyRound (10 * Mtr.sample_rate) - pyRound (0 * Mtr.sample_rate) ∧
    ((0 ∈ List.range' (searchsortedL Mtr.spike_times 0)
        (searchsortedL Mtr.spike_times 10 - searchsortedL Mtr.spike_times 0)) ↔
      ((0:ℚ) ≤ Mtr.spike_times.getD 0 0 ∧ Mtr.spike_times.getD 0 0 < 10)) ∧
    (TracesBunch.waveforms ⟨[[0], [10], [20], [30], [40], [50], [60], [70], [80], [90]],
        [⟨[[10], [20]], [0], 1, 0, 7⟩]⟩)
      = ((List.range' (searchsortedL Mtr.spike_times 0)
            (searchsortedL Mtr.spike_times 10 - searchsortedL Mtr.spike_times 0)).filter
          (fun i => !traceSkipB Mtr 0 10 i)).map
          (buildClip Mtr (select_traces Mtr 0 10) (pyRound (0 * Mtr.sample_rate))) ∧
    (traceSkipB Mtr 0 10 1 = false ↔
      (0 ≤ spikeOffset Mtr (pyRound (0 * Mtr.sample_rate)) 1
          - ((Mtr.n_samples_templates / 2 : ℕ) : ℤ) ∧
        spikeOffset Mtr (pyRound (0 * Mtr.sample_rate)) 1
            + ((Mtr.n_samples_templates / 2 : ℕ) : ℤ)
          < ((select_traces Mtr 0 10).length : ℤ))) := by
  have hcall : _get_traces Mtr 0 10
      = some ⟨[[0], [10], [20], [30], [40], [50], [60], [70], [80], [90]],
          [⟨[[10], [20]], [0], 1, 0, 7⟩]⟩ := by
    with_unfolding_all decide
  obtain ⟨h1, h2, h3, h4⟩ := C6_trace_window Mtr 0 10 _ (by decide)
    (by with_unfolding_all decide) (by with_unfolding_all decide)
    (by with_unfolding_all decide) hcall
  exact ⟨h1, h2 0 (by decide), h3, h4 1⟩

end PhyContrib
